import Mathlib

/-!
Shallow embedding of the lesson-notes wizard frontend
(src/frontend/app/page.tsx and src/frontend/components/steps/*.tsx).

Strings are Lean `String`s; JS string falsiness (`!s`) is modelled as
`s == ""`; JS numbers arising from `parseInt` are modelled as exact `Int`s;
JS object literals used as string-keyed maps are modelled as association
lists in insertion order, with property assignment (`acc[key] = v`)
overwriting the value at an existing key in place.
-/

namespace LngWizard

/-- One row of the class roster: `{ name: string; size: string }`
(src/frontend/components/steps/step-three.tsx). -/
structure ClassEntry where
  name : String
  size : String
  deriving DecidableEq, Repr

/-- The `formData` record of `Home` (src/frontend/app/page.tsx, lines 19-31). -/
structure FormData where
  subject : String
  class_level : String
  topic : String
  week_ending : String
  classes : List ClassEntry
  duration : String
  days : String
  week : String
  phone_number : String
  email : String
  custom_instructions : String
  deriving DecidableEq, Repr

/-- The initial `formData` value (page.tsx, lines 19-31). -/
def initialFormData : FormData :=
  { subject := "", class_level := "", topic := "", week_ending := ""
  , classes := [⟨"Class A", ""⟩], duration := "", days := "", week := ""
  , phone_number := "+233", email := "", custom_instructions := "" }

/-- The `newErrors` object built by `validateCurrentStep`: a key is present
(`some message`) iff the corresponding assignment ran. -/
structure Errors where
  subject : Option String := none
  class_level : Option String := none
  topic : Option String := none
  week_ending : Option String := none
  duration : Option String := none
  days : Option String := none
  week : Option String := none
  classes : Option String := none
  phone_number : Option String := none
  email : Option String := none
  deriving DecidableEq, Repr

/-- Model of `Object.keys(newErrors).length === 0` (page.tsx, line 94). -/
def Errors.isEmpty (e : Errors) : Bool :=
  e.subject.isNone && e.class_level.isNone && e.topic.isNone &&
  e.week_ending.isNone && e.duration.isNone && e.days.isNone &&
  e.week.isNone && e.classes.isNone && e.phone_number.isNone && e.email.isNone

/-- The regex `/^\+233\d{9}$/` (page.tsx, line 85): the string is the
4-character prefix `+233` followed by exactly 9 decimal digits. -/
def phoneMatches (s : String) : Bool :=
  match s.data with
  | '+' :: '2' :: '3' :: '3' :: rest => rest.length == 9 && rest.all Char.isDigit
  | _ => false

/-- A character admitted by `[^\s@]` in the email regex. -/
def isAtomChar (c : Char) : Bool := !c.isWhitespace && c != '@'

/-- After the `@`, the regex needs `[^\s@]+\.[^\s@]+`: a `.` occurring at some
position that is neither the first nor the last character. -/
def hasInnerDot (l : List Char) : Bool :=
  match l with
  | [] => false
  | _ :: rest => rest.dropLast.contains '.'

/-- The regex `/^[^\s@]+@[^\s@]+\.[^\s@]+$/` (page.tsx, line 88).  Since `@`
is excluded from every character class, a match decomposes the string at its
unique `@`: a non-empty atom run before it, and after it a run containing an
inner `.` with atom characters throughout. -/
def emailMatches (s : String) : Bool :=
  let l := s.data
  let before := l.takeWhile (fun c => c != '@')
  match l.dropWhile (fun c => c != '@') with
  | '@' :: after =>
      !before.isEmpty && before.all isAtomChar && after.all isAtomChar &&
      hasInnerDot after
  | _ => false

/-- Model of `validateCurrentStep` (page.tsx, lines 63-95), parametrised by the
`currentStep` and `formData` it closes over.  Step 3 performs two sequential
assignments to `newErrors.classes`; the second (empty-roster) assignment
overwrites the first when its condition holds. -/
def validateCurrentStep (currentStep : Nat) (formData : FormData) : Errors :=
  match currentStep with
  | 1 =>
      { subject := if formData.subject == "" then some "Subject is required" else none
      , class_level := if formData.class_level == "" then some "Class level is required" else none
      , topic := if formData.topic == "" then some "Topic is required" else none }
  | 2 =>
      { week_ending := if formData.week_ending == "" then some "Week ending is required" else none
      , duration := if formData.duration == "" then some "Duration is required" else none
      , days := if formData.days == "" then some "Days are required" else none
      , week := if formData.week == "" then some "Week number is required" else none }
  | 3 =>
      let hasEmptyClass := formData.classes.any (fun cls => cls.name == "" || cls.size == "")
      let afterFirst : Option String :=
        if hasEmptyClass then some "All classes must have a name and size" else none
      { classes :=
          if formData.classes.length == 0 then some "At least one class is required"
          else afterFirst }
  | 4 =>
      { phone_number :=
          if formData.phone_number == "" then some "Phone number is required"
          else if !phoneMatches formData.phone_number then
            some "Phone number must be in the format +233 followed by 9 digits"
          else none
      , email :=
          if formData.email != "" && !emailMatches formData.email then
            some "Invalid email format"
          else none }
  | _ => {}

/-- The clean-step condition as claim C1 states it, step by step. -/
def requiredClean : Nat → FormData → Prop
  | 1, fd => fd.subject ≠ "" ∧ fd.class_level ≠ "" ∧ fd.topic ≠ ""
  | 2, fd => fd.week_ending ≠ "" ∧ fd.duration ≠ "" ∧ fd.days ≠ "" ∧ fd.week ≠ ""
  | 3, fd => fd.classes ≠ [] ∧ ∀ c ∈ fd.classes, c.name ≠ "" ∧ c.size ≠ ""
  | 4, fd => fd.phone_number ≠ "" ∧ phoneMatches fd.phone_number = true ∧
      (fd.email = "" ∨ emailMatches fd.email = true)
  | _, _ => True

instance (s : Nat) (fd : FormData) : Decidable (requiredClean s fd) := by
  unfold requiredClean
  split <;> infer_instance

end LngWizard

namespace LngWizard

/-- Claim C1: for every step s in 1..5 and every field-value record,
`validateCurrentStep` returns an empty error mapping iff every required field
of the step is non-empty and the format-constrained fields (phone, and email
when non-empty) match their patterns; step 5 always validates clean. -/
theorem claim_C1 (s : Nat) (fd : FormData) (h1 : 1 ≤ s) (h2 : s ≤ 5) :
    (validateCurrentStep s fd).isEmpty = true ↔ requiredClean s fd := by
  interval_cases s
  · simp only [validateCurrentStep, Errors.isEmpty, requiredClean]
    split_ifs <;> simp_all [beq_iff_eq]
  · simp only [validateCurrentStep, Errors.isEmpty, requiredClean]
    split_ifs <;> simp_all [beq_iff_eq]
  · simp only [validateCurrentStep, Errors.isEmpty, requiredClean]
    by_cases hcl : fd.classes = [] <;>
      by_cases hany : ∃ c ∈ fd.classes, c.name = "" ∨ c.size = "" <;>
      simp_all [List.any_eq_true, List.length_eq_zero, beq_iff_eq]
    exact hany.imp fun c hc => ⟨hc.1, fun hn => hc.2.resolve_left hn⟩
  · simp only [validateCurrentStep, Errors.isEmpty, requiredClean]
    by_cases hp : fd.phone_number = "" <;>
      by_cases hm : phoneMatches fd.phone_number = true <;>
      by_cases he : fd.email = "" <;>
      by_cases hem : emailMatches fd.email = true <;>
      simp_all [beq_iff_eq, bne_iff_ne, Bool.not_eq_true']
  · simp [validateCurrentStep, Errors.isEmpty, requiredClean]

/-- A fully filled form (the end-to-end scenario values from the repository's
usage), used to instantiate universally quantified theorems. -/
def sampleFormData : FormData :=
  { subject := "Math", class_level := "Basic Eight", topic := "Angles"
  , week_ending := "16th May, 2025", classes := [⟨"Class A", "25"⟩]
  , duration := "4 periods", days := "Mon-Fri", week := "3"
  , phone_number := "+233123456789", email := "", custom_instructions := "" }

theorem claim_C1_witness :
    (1 ≤ 4 ∧ 4 ≤ 5) ∧
      ((validateCurrentStep 4 sampleFormData).isEmpty = true ↔
        requiredClean 4 sampleFormData) :=
  ⟨by decide, claim_C1 4 sampleFormData (by decide) (by decide)⟩

/-- Claim C7: step-3 validation reports the aggregate
"All classes must have a name and size" on the classes field when some entry
has an empty name or size, reports "At least one class is required" when the
classes sequence is empty (that check is evaluated second and overwrites the
first on the classes key), and sets no other error field. -/
theorem claim_C7 (fd : FormData) :
    ((∃ c ∈ fd.classes, c.name = "" ∨ c.size = "") →
        (validateCurrentStep 3 fd).classes = some "All classes must have a name and size")
    ∧ (fd.classes = [] →
        (validateCurrentStep 3 fd).classes = some "At least one class is required")
    ∧ validateCurrentStep 3 fd = { classes := (validateCurrentStep 3 fd).classes } := by
  refine ⟨fun h => ?_, fun h => ?_, rfl⟩
  · obtain ⟨c, hc, hcc⟩ := h
    have hne : fd.classes ≠ [] := by
      intro hnil
      rw [hnil] at hc
      exact absurd hc (List.not_mem_nil c)
    have h1 : fd.classes.any (fun cls => cls.name == "" || cls.size == "") = true := by
      refine List.any_eq_true.mpr ⟨c, hc, ?_⟩
      simpa [beq_iff_eq] using hcc
    simp [validateCurrentStep, h1, List.length_eq_zero, hne]
  · simp [validateCurrentStep, h]

/-- An otherwise-initial form whose class roster is empty. -/
def fdNoClasses : FormData := { initialFormData with classes := [] }

theorem claim_C7_witness :
    (∃ c ∈ initialFormData.classes, c.name = "" ∨ c.size = "") ∧
      (validateCurrentStep 3 initialFormData).classes =
        some "All classes must have a name and size" ∧
      fdNoClasses.classes = [] ∧
      (validateCurrentStep 3 fdNoClasses).classes =
        some "At least one class is required" :=
  ⟨by decide, (claim_C7 initialFormData).1 (by decide), rfl,
    (claim_C7 fdNoClasses).2.1 rfl⟩

/-- Model of `value.startsWith("+233")` (step-four.tsx, line 24), on the character
list of the value. -/
def hasGhanaCode : List Char → Bool
  | '+' :: '2' :: '3' :: '3' :: _ => true
  | _ => false

/-- Model of `value.replace(/^\+233/, "")` (step-four.tsx, line 25): remove a leading
`+233` if present, otherwise leave the value unchanged. -/
def stripLeading233 : List Char → List Char
  | '+' :: '2' :: '3' :: '3' :: rest => rest
  | other => other

/-- The country-code step in isolation (step-four.tsx, lines 24-26). -/
def normalizeCode (l : List Char) : List Char :=
  if hasGhanaCode l then l else '+' :: '2' :: '3' :: '3' :: stripLeading233 l

/-- Lines 22-26 of `handlePhoneNumberChange`: keep only `+` and digits
(`value.replace(/[^+\d]/g, "")`), then force the `+233` country code. -/
def normalizePhone (input : String) : List Char :=
  normalizeCode (input.data.filter (fun c => c == '+' || c.isDigit))

/-- Model of `handlePhoneNumberChange` (src/frontend/components/steps/step-four.tsx,
lines 19-32): the value stored into `formData.phone_number`; lines 28-30
truncate values longer than 13 characters (`value.slice(0, 13)`). -/
def handlePhoneNumberChange (input : String) : String :=
  ⟨if (normalizePhone input).length > 13 then (normalizePhone input).take 13
   else normalizePhone input⟩

theorem hasGhanaCode_normalizeCode (l : List Char) :
    hasGhanaCode (normalizeCode l) = true := by
  unfold normalizeCode
  split
  · assumption
  · rfl

theorem hasGhanaCode_take13 (l : List Char) (h : hasGhanaCode l = true) :
    hasGhanaCode (l.take 13) = true := by
  unfold hasGhanaCode at h
  split at h
  · rfl
  · exact absurd h (by decide)

/-- Claim C8: for every raw input the step-4 phone edit handler stores a value
that starts with `+233` and has length at most 13, truncating a normalized
candidate exceeding 13 characters to exactly 13; the stored `+233123456789`
then validates clean while `+23312345` fails with the format error. -/
theorem claim_C8 :
    (∀ input : String,
        hasGhanaCode (handlePhoneNumberChange input).data = true ∧
        (handlePhoneNumberChange input).length ≤ 13 ∧
        ((normalizePhone input).length > 13 →
          (handlePhoneNumberChange input).length = 13))
    ∧ (validateCurrentStep 4 sampleFormData).isEmpty = true
    ∧ (validateCurrentStep 4
          { sampleFormData with phone_number := "+23312345" }).phone_number =
        some "Phone number must be in the format +233 followed by 9 digits" := by
  refine ⟨fun input => ?_, by decide, by decide⟩
  have hv : hasGhanaCode (normalizePhone input) = true := hasGhanaCode_normalizeCode _
  unfold handlePhoneNumberChange
  by_cases hl : (normalizePhone input).length > 13
  · rw [if_pos hl]
    refine ⟨hasGhanaCode_take13 _ hv, ?_, fun _ => ?_⟩
    · show ((normalizePhone input).take 13).length ≤ 13
      exact List.length_take_le _ _
    · show ((normalizePhone input).take 13).length = 13
      rw [List.length_take]
      omega
  · rw [if_neg hl]
    refine ⟨hv, ?_, fun h => absurd h hl⟩
    show (normalizePhone input).length ≤ 13
    omega

theorem claim_C8_witness :
    (normalizePhone "+2331234567890000").length > 13 ∧
      (handlePhoneNumberChange "+2331234567890000").length = 13 :=
  ⟨by decide, ((claim_C8.1 "+2331234567890000").2.2 (by decide))⟩

/-- Hex digit admitted by `parseInt` after a `0x` prefix. -/
def isHexDigitChar (c : Char) : Bool :=
  c.isDigit || ('a' ≤ c && c ≤ 'f') || ('A' ≤ c && c ≤ 'F')

/-- Numeric value of a hex digit character. -/
def hexDigitVal (c : Char) : Nat :=
  if c.isDigit then c.toNat - 48
  else if 'a' ≤ c && c ≤ 'f' then c.toNat - 87
  else c.toNat - 55

/-- The hex branch of `parseInt`: longest run of hex digits, `none` (NaN)
when there is no digit. -/
def jsParseIntHex (sign : Int) (l : List Char) : Option Int :=
  let ds := l.takeWhile isHexDigitChar
  if ds.isEmpty then none
  else some (sign * Int.ofNat (ds.foldl (fun a c => a * 16 + hexDigitVal c) 0))

/-- Body of `parseInt` after whitespace and sign handling: a `0x`/`0X` prefix selects
radix 16, otherwise the longest run of decimal digits is parsed; no digit
yields `none` (NaN). -/
def jsParseIntBody (sign : Int) (l : List Char) : Option Int :=
  match l with
  | '0' :: 'x' :: rest => jsParseIntHex sign rest
  | '0' :: 'X' :: rest => jsParseIntHex sign rest
  | other =>
      let ds := other.takeWhile Char.isDigit
      if ds.isEmpty then none
      else some (sign * Int.ofNat (ds.foldl (fun a c => a * 10 + (c.toNat - 48)) 0))

/-- Model of `parseInt(s)` with the radix argument omitted (page.tsx, line 117),
modelled with exact integers. -/
def jsParseInt (s : String) : Option Int :=
  match s.data.dropWhile Char.isWhitespace with
  | '-' :: rest => jsParseIntBody (-1) rest
  | '+' :: rest => jsParseIntBody 1 rest
  | other => jsParseIntBody 1 other

/-- Model of `parseInt(cls.size) || 0` (page.tsx, line 117): NaN (and 0 itself, which
is falsy) becomes 0. -/
def jsParseIntOr0 (s : String) : Int :=
  match jsParseInt s with
  | none => 0
  | some v => v

/-- Model of `cls.name.replace(/^Class\s*/, '')` (page.tsx, line 116): remove a
literal leading `Class` with any following whitespace; names not starting
with `Class` are left untouched by the replace. -/
def stripClassToken (name : String) : String :=
  match name.data with
  | 'C' :: 'l' :: 'a' :: 's' :: 's' :: rest => ⟨rest.dropWhile Char.isWhitespace⟩
  | _ => name

/-- JS `.trim()` on the character list: drop leading and trailing
whitespace. -/
def trimChars (l : List Char) : List Char :=
  ((l.dropWhile Char.isWhitespace).reverse.dropWhile Char.isWhitespace).reverse

/-- JS `s.trim()`, modelled on the character list so it evaluates by
kernel reduction. -/
def jsTrim (s : String) : String := ⟨trimChars s.data⟩

/-- The full key derivation of `handleSubmit`: the replace above followed by
`.trim()` (page.tsx, line 116). -/
def clsKey (name : String) : String := jsTrim (stripClassToken name)

/-- Helper for `objSet`: replace the value at an entry whose key is `k`,
leaving other entries untouched. -/
def setVal (k : String) (v : Int) (p : String × Int) : String × Int :=
  if p.1 == k then (p.1, v) else p

/-- JS property assignment `acc[key] = v` on an object modelled as an
insertion-ordered association list: an existing key keeps its position and
gets the new value, a new key is appended. -/
def objSet (acc : List (String × Int)) (k : String) (v : Int) : List (String × Int) :=
  if acc.any (fun p => p.1 == k) then acc.map (setVal k v)
  else acc ++ [(k, v)]

/-- JS property read `acc[k]`: the value at the first (unique) occurrence of
the key. -/
def objGet : List (String × Int) → String → Option Int
  | [], _ => none
  | p :: rest, k => if p.1 == k then some p.2 else objGet rest k

/-- The key sequence of the object. -/
def keysOf (acc : List (String × Int)) : List String := acc.map Prod.fst

/-- The body of the `cls_size` reduce callback (page.tsx, lines 114-120):
an entry with an empty name or size leaves the accumulator unchanged, any
other one assigns `acc[clsKey name] = parseInt(size) || 0`. -/
def clsStep (acc : List (String × Int)) (cls : ClassEntry) : List (String × Int) :=
  if cls.name != "" && cls.size != "" then
    objSet acc (clsKey cls.name) (jsParseIntOr0 cls.size)
  else acc

/-- The `cls_size` object built by `handleSubmit` (page.tsx, lines 114-120):
the reduce of `clsStep` over the roster, starting from `{}`. -/
def cls_size (classes : List ClassEntry) : List (String × Int) :=
  classes.foldl clsStep []

/-- Modelled from the claim's wording, for comparison with `clsKey`: a name
with the leading Class token has the token and surrounding whitespace
stripped; a name without that prefix is used as-is. -/
def clsKeyClaim (name : String) : String :=
  match name.data with
  | 'C' :: 'l' :: 'a' :: 's' :: 's' :: rest =>
      jsTrim ⟨rest.dropWhile Char.isWhitespace⟩
  | _ => name

/-- The value claim C10 predicts for a key: the parsed size of the last
entry, in sequence order, that has non-empty name and size and derives that
key. -/
def lastSizeFor (classes : List ClassEntry) (k : String) : Option Int :=
  match (classes.filter (fun c => c.name != "" && c.size != "")).reverse.find?
      (fun c => clsKey c.name == k) with
  | some c => some (jsParseIntOr0 c.size)
  | none => none



theorem objGet_map_ne (k : String) (v : Int) (k' : String) (h : k' ≠ k)
    (acc : List (String × Int)) :
    objGet (acc.map (setVal k v)) k' = objGet acc k' := by
  induction acc with
  | nil => rfl
  | cons a acc ih =>
      by_cases hk : a.1 = k
      · have hs : setVal k v a = (a.1, v) := by simp [setVal, hk]
        have h2 : (a.1 == k') = false := by
          rw [beq_eq_false_iff_ne, hk]
          exact Ne.symm h
        simp [objGet, hs, h2, ih]
      · have hs : setVal k v a = a := by simp [setVal, hk]
        simp [objGet, hs, ih]

theorem objGet_map_eq (k : String) (v : Int) (acc : List (String × Int)) :
    objGet (acc.map (setVal k v)) k =
      if acc.any (fun p => p.1 == k) then some v else none := by
  induction acc with
  | nil => rfl
  | cons a acc ih =>
      by_cases hk : a.1 = k
      · have hs : setVal k v a = (a.1, v) := by simp [setVal, hk]
        have h1 : (a.1 == k) = true := by rwa [beq_iff_eq]
        simp [objGet, hs, h1]
      · have h1 : (a.1 == k) = false := by rwa [beq_eq_false_iff_ne]
        have hs : setVal k v a = a := by simp [setVal, hk]
        simp [objGet, hs, h1, ih]
        rw [h1, Bool.false_or]

theorem objGet_append (bcc : List (String × Int)) (k : String)
    (acc : List (String × Int)) :
    objGet (acc ++ bcc) k =
      match objGet acc k with
      | some v => some v
      | none => objGet bcc k := by
  induction acc with
  | nil => rfl
  | cons a acc ih =>
      by_cases hk : a.1 = k
      · simp [objGet, hk]
      · have h1 : (a.1 == k) = false := by rwa [beq_eq_false_iff_ne]
        simp [objGet, h1, ih]

theorem objGet_eq_none (k : String) (acc : List (String × Int)) :
    acc.any (fun p => p.1 == k) = false → objGet acc k = none := by
  induction acc with
  | nil => exact fun _ => rfl
  | cons a acc ih =>
      intro h
      rw [List.any_cons, Bool.or_eq_false_iff] at h
      simp [objGet, h.1, ih h.2]

/-- Reading back after a JS property assignment: the assigned key now holds
the assigned value, every other key is untouched. -/
theorem objGet_objSet (acc : List (String × Int)) (k : String) (v : Int) (k' : String) :
    objGet (objSet acc k v) k' = if k' = k then some v else objGet acc k' := by
  unfold objSet
  by_cases hmem : acc.any (fun p => p.1 == k) = true
  · rw [if_pos hmem]
    by_cases hk : k' = k
    · subst hk
      rw [if_pos rfl, objGet_map_eq, if_pos hmem]
    · rw [if_neg hk, objGet_map_ne k v k' hk]
  · rw [if_neg hmem, objGet_append]
    have hfalse : acc.any (fun p => p.1 == k) = false := by
      rw [Bool.eq_false_iff]
      exact hmem
    by_cases hk : k' = k
    · subst hk
      rw [objGet_eq_none k' acc hfalse]
      simp [objGet]
    · rw [if_neg hk]
      have h2 : (k == k') = false := by
        rw [beq_eq_false_iff_ne]
        exact Ne.symm hk
      cases hcase : objGet acc k' <;> simp [objGet, h2, hcase]

theorem objGet_foldl_clsStep (k : String) (cs : List ClassEntry) :
    ∀ acc, objGet (cs.foldl clsStep acc) k =
      match (cs.filter (fun c => c.name != "" && c.size != "")).reverse.find?
          (fun c => clsKey c.name == k) with
      | some c => some (jsParseIntOr0 c.size)
      | none => objGet acc k := by
  induction cs with
  | nil => exact fun acc => rfl
  | cons c cs ih =>
      intro acc
      rw [List.foldl_cons, ih]
      by_cases hv : (c.name != "" && c.size != "") = true
      · rw [List.filter_cons, if_pos hv, List.reverse_cons, List.find?_append]
        cases hfind : (cs.filter (fun c => c.name != "" && c.size != "")).reverse.find?
            (fun c => clsKey c.name == k) with
        | some c' => simp [Option.or]
        | none =>
            rw [clsStep, if_pos hv, objGet_objSet]
            by_cases hkey : clsKey c.name = k
            · have hb : (clsKey c.name == k) = true := by rwa [beq_iff_eq]
              simp [List.find?, hb, Option.or, hkey]
            · have hb : (clsKey c.name == k) = false := by rwa [beq_eq_false_iff_ne]
              simp [List.find?, hb, Option.or, Ne.symm hkey]
      · have hv' : ¬ ((c.name != "" && c.size != "") = true) := hv
        rw [List.filter_cons, if_neg hv', clsStep, if_neg hv']

theorem objGet_cls_size (k : String) (cs : List ClassEntry) :
    objGet (cls_size cs) k = lastSizeFor cs k := by
  rw [cls_size, objGet_foldl_clsStep, lastSizeFor]
  rfl

theorem keys_map_setVal (k : String) (v : Int) (acc : List (String × Int)) :
    (acc.map (setVal k v)).map Prod.fst = acc.map Prod.fst := by
  induction acc with
  | nil => rfl
  | cons a acc ih =>
      have hfst : (setVal k v a).1 = a.1 := by
        rw [setVal]
        split <;> rfl
      simp [hfst, ih]

theorem nodup_keys_objSet (acc : List (String × Int)) (k : String) (v : Int)
    (h : (keysOf acc).Nodup) : (keysOf (objSet acc k v)).Nodup := by
  rw [objSet]
  unfold keysOf at h ⊢
  by_cases hmem : acc.any (fun p => p.1 == k) = true
  · rw [if_pos hmem, keys_map_setVal]
    exact h
  · rw [if_neg hmem, List.map_append]
    have hk : k ∉ acc.map Prod.fst := by
      intro hkmem
      obtain ⟨p, hp, hpk⟩ := List.mem_map.mp hkmem
      exact hmem (List.any_eq_true.mpr ⟨p, hp, by rw [beq_iff_eq]; exact hpk⟩)
    simp [List.nodup_append, h, hk]

theorem nodup_keys_foldl (cs : List ClassEntry) :
    ∀ acc, (keysOf acc).Nodup → (keysOf (cs.foldl clsStep acc)).Nodup := by
  induction cs with
  | nil => exact fun acc h => h
  | cons c cs ih =>
      intro acc h
      rw [List.foldl_cons]
      apply ih
      rw [clsStep]
      split
      · exact nodup_keys_objSet acc _ _ h
      · exact h

theorem nodup_keys_cls_size (cs : List ClassEntry) : (keysOf (cls_size cs)).Nodup :=
  nodup_keys_foldl cs [] (by simp [keysOf])

/-- Claim C10: when two roster entries derive the same key, `cls_size` holds
a single binding for that key whose value is the parsed size of the later
entry (last entry wins): keys are duplicate-free, the value read at any key
is that of the last valid entry deriving it, and on the concrete roster
`[Class A / 25, A / 30]` the result is the single binding A maps-to 30, the
earlier 25 being lost without any error. -/
theorem claim_C10 :
    cls_size [⟨"Class A", "25"⟩, ⟨"A", "30"⟩] = [("A", 30)]
    ∧ (∀ cs : List ClassEntry, (keysOf (cls_size cs)).Nodup)
    ∧ (∀ (cs : List ClassEntry) (k : String),
        objGet (cls_size cs) k = lastSizeFor cs k) :=
  ⟨by decide, nodup_keys_cls_size, fun cs k => objGet_cls_size k cs⟩

/-- Claim C3 counterexample: the claim says a name without the leading
`Class` prefix is used as-is as the key, but the code's key derivation always
applies `.trim()`: the roster entry with name « B » (surrounded by spaces)
and size 1 produces the binding with the *trimmed* key B, not the as-is
key « B » the claim predicts. -/
theorem claim_C3_counterexample :
    cls_size [⟨" B ", "1"⟩] = [("B", 1)]
    ∧ clsKeyClaim " B " = " B "
    ∧ clsKey " B " ≠ clsKeyClaim " B " := by decide

/-- Claim C3 (amended): `cls_size` maps every entry with non-empty name and
size to the key obtained by stripping a leading `Class` token with its
following whitespace and then trimming surrounding whitespace (so a name
without that prefix is also whitespace-trimmed, not used as-is), with the
size parsed as an integer defaulting to 0 on parse failure; entries with an
empty name or size are dropped; in particular Class A / 25 yields A
maps-to 25 and B / abc yields B maps-to 0. -/
theorem claim_C3 :
    cls_size [⟨"Class A", "25"⟩] = [("A", 25)]
    ∧ cls_size [⟨"B", "abc"⟩] = [("B", 0)]
    ∧ (∀ n s : String, n ≠ "" → s ≠ "" →
        cls_size [⟨n, s⟩] = [(jsTrim (stripClassToken n), jsParseIntOr0 s)])
    ∧ (∀ (s : String) (rest : List ClassEntry),
        cls_size (⟨"", s⟩ :: rest) = cls_size rest)
    ∧ (∀ (n : String) (rest : List ClassEntry),
        cls_size (⟨n, ""⟩ :: rest) = cls_size rest) := by
  refine ⟨by decide, by decide, fun n s hn hs => ?_, fun s rest => ?_, fun n rest => ?_⟩
  · have hn' : (n != "") = true := by rwa [bne_iff_ne]
    have hs' : (s != "") = true := by rwa [bne_iff_ne]
    simp [cls_size, clsStep, hn', hs', objSet, clsKey]
  · simp [cls_size, clsStep]
  · have hv : (n != "" && ("" != "" : Bool)) = false := by simp
    simp [cls_size, clsStep, hv]

theorem claim_C3_witness :
    (("Basic 8" : String) ≠ "" ∧ ("31" : String) ≠ "") ∧
      cls_size [⟨"Basic 8", "31"⟩] =
        [(jsTrim (stripClassToken "Basic 8"), jsParseIntOr0 "31")] :=
  ⟨by decide, claim_C3.2.2.1 "Basic 8" "31" (by decide) (by decide)⟩

/-- The `notification.type` values (page.tsx, lines 137-152). -/
inductive NKind where
  | success
  | error
  deriving DecidableEq, Repr

/-- The notification object set by `handleSubmit`; the error path sets no
`fileUrl` property (page.tsx, lines 137-152). -/
structure Notification where
  kind : NKind
  message : String
  fileUrl : Option String
  deriving DecidableEq, Repr

/-- The component state of `Home` (page.tsx, lines 18-35). -/
structure WizState where
  currentStep : Nat
  formData : FormData
  errors : Errors
  loading : Bool
  notification : Option Notification
  visibleFieldIndex : Nat
  deriving DecidableEq, Repr

/-- The initial component state (page.tsx, lines 18-35). -/
def initWizState : WizState :=
  { currentStep := 1, formData := initialFormData, errors := {}
  , loading := false, notification := none, visibleFieldIndex := 0 }

/-- The `totalSteps` constant (page.tsx, line 37). -/
def totalSteps : Nat := 5

/-- The per-step field counts of the reveal timer (page.tsx, lines 45-52),
with the `|| 0` default for unknown steps. -/
def maxFields (step : Nat) : Nat :=
  match step with
  | 1 => 3
  | 2 => 4
  | 3 => 1
  | 4 => 2
  | 5 => 1
  | _ => 0

/-- One tick of the reveal interval (page.tsx, lines 43-55): increment
`visibleFieldIndex` while it is below the step's field count, otherwise
leave it unchanged. -/
def tickFn (step vfi : Nat) : Nat :=
  if vfi < maxFields step then vfi + 1 else vfi

/-- Model of `handleNext` (page.tsx, lines 97-101): `validateCurrentStep` stores the
fresh error map and gates the increment, capped at `totalSteps`. -/
def handleNext (st : WizState) : WizState :=
  if (validateCurrentStep st.currentStep st.formData).isEmpty then
    { st with errors := validateCurrentStep st.currentStep st.formData
            , currentStep := min (st.currentStep + 1) totalSteps }
  else { st with errors := validateCurrentStep st.currentStep st.formData }

/-- Model of `handlePrevious` (page.tsx, lines 103-105). -/
def handlePrevious (st : WizState) : WizState :=
  { st with currentStep := max (st.currentStep - 1) 1 }

/-- The reveal effect (page.tsx, lines 41-57) re-runs exactly when
`currentStep` changes and then resets `visibleFieldIndex` to 0. -/
def withStepEffect (old new : WizState) : WizState :=
  if new.currentStep = old.currentStep then new
  else { new with visibleFieldIndex := 0 }

/-- A merge-patch through `updateFormData` (page.tsx, lines 59-61) as issued
by the scalar text-field handlers of StepOne/StepTwo/StepFour/StepFive; the
classes sequence is only ever written by the StepThree handlers, modelled as
separate actions. -/
structure Patch where
  subject : Option String := none
  class_level : Option String := none
  topic : Option String := none
  week_ending : Option String := none
  duration : Option String := none
  days : Option String := none
  week : Option String := none
  email : Option String := none
  custom_instructions : Option String := none
  deriving Repr

/-- Apply a merge-patch to the form data. -/
def applyPatch (fd : FormData) (p : Patch) : FormData :=
  { fd with
      subject := p.subject.getD fd.subject
    , class_level := p.class_level.getD fd.class_level
    , topic := p.topic.getD fd.topic
    , week_ending := p.week_ending.getD fd.week_ending
    , duration := p.duration.getD fd.duration
    , days := p.days.getD fd.days
    , week := p.week.getD fd.week
    , email := p.email.getD fd.email
    , custom_instructions := p.custom_instructions.getD fd.custom_instructions }

/-- Which field of a class entry is edited. -/
inductive ClassField where
  | cname
  | csize
  deriving DecidableEq, Repr

/-- Model of `{ ...updatedClasses[index], [field]: value }` (step-three.tsx, line 23). -/
def setClassField (c : ClassEntry) (f : ClassField) (v : String) : ClassEntry :=
  match f with
  | .cname => { c with name := v }
  | .csize => { c with size := v }

/-- Model of `handleClassChange` (step-three.tsx, lines 21-25): replace the entry at
the index with its field updated; an out-of-range index leaves the list
unchanged (the UI only produces in-range indices). -/
def handleClassChange (classes : List ClassEntry) (i : Nat) (f : ClassField)
    (v : String) : List ClassEntry :=
  classes.set i (setClassField (classes.getD i ⟨"", ""⟩) f v)

/-- Model of `addClass` (step-three.tsx, lines 27-33): append a blank entry. -/
def addClass (classes : List ClassEntry) : List ClassEntry :=
  classes ++ [⟨"", ""⟩]

/-- Model of `removeClass` (step-three.tsx, lines 35-39): `splice(index, 1)`. -/
def removeClass (classes : List ClassEntry) (i : Nat) : List ClassEntry :=
  classes.eraseIdx i

/-- The user-visible wizard operations wired in the components. -/
inductive Action where
  | next
  | previous
  | tick
  | editField (p : Patch)
  | phoneInput (raw : String)
  | classChange (i : Nat) (f : ClassField) (v : String)
  | addClassAction
  | removeClassAction (i : Nat)
  deriving Repr

/-- One user-visible transition.  `next`/`previous` fold in the reveal
effect; `removeClassAction` carries the render guard of StepThree (the
remove button exists only when `formData.classes.length > 1`,
step-three.tsx, line 65), so clicking remove with one entry left is
impossible and the state is unchanged. -/
def run (st : WizState) : Action → WizState
  | .next => withStepEffect st (handleNext st)
  | .previous => withStepEffect st (handlePrevious st)
  | .tick => { st with visibleFieldIndex := tickFn st.currentStep st.visibleFieldIndex }
  | .editField p => { st with formData := applyPatch st.formData p }
  | .phoneInput raw =>
      { st with formData :=
          { st.formData with phone_number := handlePhoneNumberChange raw } }
  | .classChange i f v =>
      { st with formData :=
          { st.formData with classes := handleClassChange st.formData.classes i f v } }
  | .addClassAction =>
      { st with formData :=
          { st.formData with classes := addClass st.formData.classes } }
  | .removeClassAction i =>
      if st.formData.classes.length > 1 then
        { st with formData :=
            { st.formData with classes := removeClass st.formData.classes i } }
      else st

/-- A session: the initial state driven by a sequence of user actions. -/
def runActions (acts : List Action) : WizState :=
  acts.foldl run initWizState

theorem withStepEffect_currentStep (old new : WizState) :
    (withStepEffect old new).currentStep = new.currentStep := by
  rw [withStepEffect]
  split <;> rfl

theorem withStepEffect_errors (old new : WizState) :
    (withStepEffect old new).errors = new.errors := by
  rw [withStepEffect]
  split <;> rfl

theorem withStepEffect_formData (old new : WizState) :
    (withStepEffect old new).formData = new.formData := by
  rw [withStepEffect]
  split <;> rfl

theorem handleNext_formData (st : WizState) : (handleNext st).formData = st.formData := by
  rw [handleNext]
  split <;> rfl

theorem run_step_bounds (st : WizState) (a : Action)
    (h1 : 1 ≤ st.currentStep) (h2 : st.currentStep ≤ totalSteps) :
    1 ≤ (run st a).currentStep ∧ (run st a).currentStep ≤ totalSteps := by
  cases a with
  | next =>
      simp only [run, withStepEffect_currentStep, handleNext]
      split
      · simp only [totalSteps] at h2 ⊢
        omega
      · exact ⟨h1, h2⟩
  | previous =>
      simp only [run, withStepEffect_currentStep, handlePrevious]
      simp only [totalSteps] at h2 ⊢
      omega
  | tick => exact ⟨h1, h2⟩
  | editField p => exact ⟨h1, h2⟩
  | phoneInput raw => exact ⟨h1, h2⟩
  | classChange i f v => exact ⟨h1, h2⟩
  | addClassAction => exact ⟨h1, h2⟩
  | removeClassAction i =>
      simp only [run]
      split
      · exact ⟨h1, h2⟩
      · exact ⟨h1, h2⟩

theorem foldl_run_bounds (acts : List Action) :
    ∀ st : WizState, 1 ≤ st.currentStep → st.currentStep ≤ totalSteps →
      1 ≤ (acts.foldl run st).currentStep ∧ (acts.foldl run st).currentStep ≤ totalSteps := by
  induction acts with
  | nil => exact fun st h1 h2 => ⟨h1, h2⟩
  | cons a acts ih =>
      intro st h1 h2
      rw [List.foldl_cons]
      obtain ⟨g1, g2⟩ := run_step_bounds st a h1 h2
      exact ih (run st a) g1 g2

/-- Claim C5: `next` moves to `min(step+1, 5)` exactly when the current step
validates clean (storing the then-empty error map) and otherwise leaves the
step unchanged with the validation errors stored for display; `previous`
unconditionally moves to `max(step-1, 1)`; and along every action sequence
from the initial state, `currentStep` stays within 1..5. -/
theorem claim_C5 :
    (∀ st : WizState,
        (validateCurrentStep st.currentStep st.formData).isEmpty = true →
          (run st .next).currentStep = min (st.currentStep + 1) totalSteps ∧
          (run st .next).errors = validateCurrentStep st.currentStep st.formData)
    ∧ (∀ st : WizState,
        (validateCurrentStep st.currentStep st.formData).isEmpty = false →
          (run st .next).currentStep = st.currentStep ∧
          (run st .next).errors = validateCurrentStep st.currentStep st.formData)
    ∧ (∀ st : WizState, (run st .previous).currentStep = max (st.currentStep - 1) 1)
    ∧ (∀ acts : List Action,
        1 ≤ (runActions acts).currentStep ∧ (runActions acts).currentStep ≤ totalSteps) := by
  refine ⟨fun st h => ?_, fun st h => ?_, fun st => ?_, fun acts => ?_⟩
  · simp only [run, withStepEffect_currentStep, withStepEffect_errors, handleNext, h]
    exact ⟨rfl, rfl⟩
  · simp only [run, withStepEffect_currentStep, withStepEffect_errors, handleNext, h]
    exact ⟨rfl, rfl⟩
  · simp only [run, withStepEffect_currentStep, handlePrevious]
  · exact foldl_run_bounds acts initWizState (by decide) (by decide)

theorem claim_C5_witness :
    ((validateCurrentStep initWizState.currentStep initWizState.formData).isEmpty = false) ∧
      (run initWizState .next).currentStep = initWizState.currentStep ∧
      (run initWizState .next).errors =
        validateCurrentStep initWizState.currentStep initWizState.formData :=
  ⟨by decide, claim_C5.2.1 initWizState (by decide)⟩

theorem run_classes_ne_nil (st : WizState) (a : Action)
    (h : st.formData.classes ≠ []) : (run st a).formData.classes ≠ [] := by
  cases a with
  | next => simpa only [run, withStepEffect_formData, handleNext_formData] using h
  | previous => simpa only [run, withStepEffect_formData, handlePrevious] using h
  | tick => exact h
  | editField p => exact h
  | phoneInput raw => exact h
  | classChange i f v =>
      simp only [run, handleClassChange]
      intro hnil
      have := congrArg List.length hnil
      rw [List.length_set] at this
      exact h (List.length_eq_zero.mp this)
  | addClassAction =>
      simp only [run, addClass]
      exact fun hnil => List.cons_ne_nil _ _ (List.append_eq_nil.mp hnil).2
  | removeClassAction i =>
      simp only [run]
      split
      · next hlen =>
          simp only [removeClass]
          intro hnil
          have hlen2 := congrArg List.length hnil
          rw [List.length_eraseIdx] at hlen2
          simp only [List.length_nil] at hlen2
          split at hlen2 <;> omega
      · exact h

theorem foldl_run_classes (acts : List Action) :
    ∀ st : WizState, st.formData.classes ≠ [] →
      (acts.foldl run st).formData.classes ≠ [] := by
  induction acts with
  | nil => exact fun st h => h
  | cons a acts ih =>
      intro st h
      rw [List.foldl_cons]
      exact ih (run st a) (run_classes_ne_nil st a h)

/-- Claim C6: the remove-class operation is refused when a single entry
remains (the remove button is rendered only for rosters longer than one, so
the state is unchanged), and along every action sequence from the initial
state the classes sequence is never empty. -/
theorem claim_C6 :
    (∀ (st : WizState) (i : Nat),
        st.formData.classes.length = 1 → run st (.removeClassAction i) = st)
    ∧ (∀ acts : List Action, (runActions acts).formData.classes ≠ []) := by
  refine ⟨fun st i h => ?_, fun acts => ?_⟩
  · simp only [run]
    rw [if_neg]
    omega
  · exact foldl_run_classes acts initWizState (by decide)

theorem claim_C6_witness :
    initWizState.formData.classes.length = 1 ∧
      run initWizState (.removeClassAction 0) = initWizState :=
  ⟨by decide, claim_C6.1 initWizState 0 (by decide)⟩

theorem run_vfi_reset (st : WizState) (a : Action)
    (h : (run st a).currentStep ≠ st.currentStep) :
    (run st a).visibleFieldIndex = 0 := by
  cases a with
  | next =>
      simp only [run, withStepEffect] at h ⊢
      by_cases heq : (handleNext st).currentStep = st.currentStep
      · rw [if_pos heq] at h
        exact absurd heq h
      · rw [if_neg heq]
  | previous =>
      simp only [run, withStepEffect] at h ⊢
      by_cases heq : (handlePrevious st).currentStep = st.currentStep
      · rw [if_pos heq] at h
        exact absurd heq h
      · rw [if_neg heq]
  | tick => exact absurd rfl h
  | editField p => exact absurd rfl h
  | phoneInput raw => exact absurd rfl h
  | classChange i f v => exact absurd rfl h
  | addClassAction => exact absurd rfl h
  | removeClassAction i =>
      have hs : (run st (.removeClassAction i)).currentStep = st.currentStep := by
        simp only [run]
        split <;> rfl
      exact absurd hs h

/-- Claim C9: a scheduler tick increments `visibleFieldIndex` by one while it
is below the current step's field count and leaves it unchanged once the
count is reached; step 2 has field count 4 and, starting from 0, n ticks
reach exactly `min n 4` (so 4 ticks reach 4 and further ticks never exceed
it); and any transition that changes the step resets `visibleFieldIndex` to
0 regardless of its prior value. -/
theorem claim_C9 :
    (∀ s v : Nat, v < maxFields s → tickFn s v = v + 1)
    ∧ (∀ s v : Nat, maxFields s ≤ v → tickFn s v = v)
    ∧ maxFields 2 = 4
    ∧ (∀ n : Nat, (tickFn 2)^[n] 0 = min n 4)
    ∧ (∀ (st : WizState) (a : Action),
        (run st a).currentStep ≠ st.currentStep → (run st a).visibleFieldIndex = 0) := by
  refine ⟨fun s v h => if_pos h, fun s v h => if_neg (by omega), rfl, fun n => ?_,
    run_vfi_reset⟩
  induction n with
  | zero => rfl
  | succ n ih =>
      rw [Function.iterate_succ_apply', ih, tickFn]
      have hm : maxFields 2 = 4 := rfl
      rw [hm]
      split <;> omega

/-- A state sitting at step 2 with some fields already revealed. -/
def stepTwoState : WizState :=
  { initWizState with currentStep := 2, visibleFieldIndex := 3 }

theorem claim_C9_witness :
    (0 < maxFields 2 ∧ tickFn 2 0 = 0 + 1) ∧
      (maxFields 2 ≤ 4 ∧ tickFn 2 4 = 4) ∧
      ((run stepTwoState .previous).currentStep ≠ stepTwoState.currentStep ∧
        (run stepTwoState .previous).visibleFieldIndex = 0) :=
  ⟨⟨by decide, claim_C9.1 2 0 (by decide)⟩,
    ⟨by decide, claim_C9.2.1 2 4 (by decide)⟩,
    ⟨by decide, claim_C9.2.2.2.2 stepTwoState .previous (by decide)⟩⟩

/-- The request body posted by `handleSubmit` (page.tsx, lines 122-134). -/
structure Payload where
  subject : String
  class_level : String
  topic : String
  week_ending : String
  cls_size : List (String × Int)
  duration : String
  days : String
  week : String
  phone_number : String
  email : String
  custom_instructions : String
  deriving DecidableEq, Repr

/-- Build the request body from the form data (page.tsx, lines 122-134). -/
def buildPayload (fd : FormData) : Payload :=
  { subject := fd.subject, class_level := fd.class_level, topic := fd.topic
  , week_ending := fd.week_ending, cls_size := LngWizard.cls_size fd.classes
  , duration := fd.duration, days := fd.days, week := fd.week
  , phone_number := fd.phone_number, email := fd.email
  , custom_instructions := fd.custom_instructions }

/-- Model of `response.data.fileUrl || response.data.filePath` (page.tsx, line 136):
JS `||` where an absent or empty-string first operand selects the second. -/
def jsOrOpt (a b : Option String) : Option String :=
  match a with
  | some s => if s == "" then b else some s
  | none => b

/-- Model of `error.response?.data?.message || fallback` (page.tsx, line 145): an
absent or empty message selects the fallback string. -/
def jsOrStr (m : Option String) (d : String) : String :=
  match m with
  | some s => if s == "" then d else s
  | none => d

/-- The classes of rejection values the catch block distinguishes (page.tsx,
lines 142-148): an axios error carrying an optional structured body message,
a plain JS `Error` carrying its own message, or any other thrown value. -/
inductive JsError where
  | axios (responseMessage : Option String)
  | jsErr (message : String)
  | other
  deriving DecidableEq, Repr

/-- The outcome of the awaited POST: a resolved response with its optional
`fileUrl` and `filePath` fields, or a rejection. -/
inductive SubmitOutcome where
  | ok (fileUrl : Option String) (filePath : Option String)
  | fail (e : JsError)
  deriving DecidableEq, Repr

/-- The success notification text (page.tsx, line 139). -/
def successMessage : String :=
  "Lesson notes generated successfully! Check your WhatsApp and email for the download link."

/-- The generic failure text (page.tsx, line 143). -/
def genericFailureMessage : String :=
  "Failed to generate lesson notes. Please try again."

/-- The axios-error fallback text (page.tsx, line 145). -/
def serverErrorMessage : String := "Server error occurred."

/-- The error-message classification of the catch block (page.tsx, lines
142-148): axios errors use the response body's message with the
"Server error occurred." fallback, plain `Error`s use their own message,
anything else keeps the generic initial message. -/
def errorMessageFor : JsError → String
  | .axios m => jsOrStr m serverErrorMessage
  | .jsErr msg => msg
  | .other => genericFailureMessage

/-- The synchronous prefix of a submit attempt: the Generate button's
`disabled={loading}` guard (page.tsx, line 311) drops the click outright
while a submission is in flight; otherwise `handleSubmit` (page.tsx, lines
107-122) re-validates, aborts with the stored errors when dirty, and when
clean sets `loading` and issues exactly one request, returned here as
`some payload`. -/
def generateClick (st : WizState) : WizState × Option Payload :=
  if st.loading then (st, none)
  else if (validateCurrentStep st.currentStep st.formData).isEmpty then
    ({ st with errors := validateCurrentStep st.currentStep st.formData
             , loading := true },
      some (buildPayload st.formData))
  else ({ st with errors := validateCurrentStep st.currentStep st.formData }, none)

/-- The continuation of `handleSubmit` once the awaited call settles
(page.tsx, lines 136-155): the try-branch builds a success notification with
`fileUrl || filePath`, the catch-branch an error notification with the
classified message, and the finally-branch always clears `loading`. -/
def submitSettle (st : WizState) : SubmitOutcome → WizState
  | .ok fu fp =>
      { st with
          notification := some ⟨.success, successMessage, jsOrOpt fu fp⟩
        , loading := false }
  | .fail e =>
      { st with
          notification := some ⟨.error, errorMessageFor e, none⟩
        , loading := false }

/-- Claim C2: while a submission is in flight (`loading = true`) a further
submit invocation is dropped by the disabled Generate button: the state is
unchanged and no second outbound request is issued. -/
theorem claim_C2 (st : WizState) (h : st.loading = true) :
    generateClick st = (st, none) := by
  rw [generateClick, if_pos h]

/-- A state with a submission in flight. -/
def loadingState : WizState := { initWizState with loading := true }

theorem claim_C2_witness :
    loadingState.loading = true ∧ generateClick loadingState = (loadingState, none) :=
  ⟨rfl, claim_C2 loadingState rfl⟩

/-- Claim C4 counterexample: an axios failure whose response carries no
`message` field (for instance a 500 with an empty body) yields the
notification message "Server error occurred.", not the generic
failed-to-generate message the claim requires for every failure without a
structured body message. -/
theorem claim_C4_counterexample :
    (submitSettle loadingState (.fail (.axios none))).notification =
      some ⟨.error, serverErrorMessage, none⟩
    ∧ serverErrorMessage ≠ genericFailureMessage := by decide

/-- Claim C4 (amended): a failed submission yields an error notification
whose message is the structured response body's message when present and
non-empty; an axios failure without one yields "Server error occurred."
(not the generic failed-to-generate message), a thrown `Error` yields its
own message, and only any other rejection yields the generic message;
`loading` is false after every settled submission, and an aborted click that
issues no request leaves `loading` false when it was false. -/
theorem claim_C4 (st : WizState) :
    (∀ m : String, m ≠ "" →
        (submitSettle st (.fail (.axios (some m)))).notification =
          some ⟨.error, m, none⟩)
    ∧ (submitSettle st (.fail (.axios none))).notification =
        some ⟨.error, serverErrorMessage, none⟩
    ∧ (∀ msg : String,
        (submitSettle st (.fail (.jsErr msg))).notification =
          some ⟨.error, msg, none⟩)
    ∧ (submitSettle st (.fail .other)).notification =
        some ⟨.error, genericFailureMessage, none⟩
    ∧ (∀ o : SubmitOutcome, (submitSettle st o).loading = false)
    ∧ (st.loading = false → (generateClick st).2 = none →
        (generateClick st).1.loading = false) := by
  refine ⟨fun m hm => ?_, rfl, fun msg => rfl, rfl, fun o => ?_, fun hl hn => ?_⟩
  · have hb : (m == "") = false := by rwa [beq_eq_false_iff_ne]
    simp [submitSettle, errorMessageFor, jsOrStr, hb]
  · cases o <;> rfl
  · rw [generateClick, hl] at hn ⊢
    simp only [Bool.false_eq_true, if_false] at hn ⊢
    by_cases he : (validateCurrentStep st.currentStep st.formData).isEmpty = true
    · rw [if_pos he] at hn
      exact absurd hn (by simp)
    · rw [if_neg he]

theorem claim_C4_witness :
    (("server overloaded" : String) ≠ "") ∧
      (submitSettle initWizState (.fail (.axios (some "server overloaded")))).notification =
        some ⟨.error, "server overloaded", none⟩ ∧
      (submitSettle initWizState (.fail (.axios (some "server overloaded")))).loading = false :=
  ⟨by decide, (claim_C4 initWizState).1 "server overloaded" (by decide),
    (claim_C4 initWizState).2.2.2.2.1 (.fail (.axios (some "server overloaded")))⟩
